import Mathlib

/-!
# BidMule — verification of the financial model, quantity engine, pricing and parser

Shallow embedding of the deterministic computation pipeline of the BidMule
estimating tool.  Python floats are modelled as exact rationals (`ℚ`); Python
`round` (banker's rounding, ties to even) is modelled by `pyRound`; fallible
lookups return `Except`/`Option`.  Each definition is translated from the
repository source file and function named in its doc comment.
-/

/-- Python `round(x)`: round half to even (banker's rounding), on exact
rationals. -/
def pyRound (x : ℚ) : ℤ :=
  let f := ⌊x⌋
  let r := x - (f : ℚ)
  if r < 1/2 then f
  else if 1/2 < r then f + 1
  else if Even f then f else f + 1

/-- Python `round(x, 2)`: round to cents, ties to even. -/
def round2 (x : ℚ) : ℚ := (pyRound (100 * x) : ℚ) / 100

/-- The `1e-9` epsilon used throughout `app.py`'s financial code. -/
def feps : ℚ := 1 / 1000000000

/-- Python `\s` (ASCII coverage; also the set stripped by `str.strip()`). -/
def pySpace (c : Char) : Bool :=
  c = ' ' || c = '\t' || c = '\n' || c = '\r' || c = '\x0b' || c = '\x0c'

/-- Python `str.lower()` (ASCII), by structural recursion so that concrete
values reduce. -/
def pyLower (s : String) : String := ⟨s.data.map Char.toLower⟩

/-- Python `str.strip()`: drop leading and trailing whitespace. -/
def pyStrip (s : String) : String :=
  ⟨((s.data.dropWhile pySpace).reverse.dropWhile pySpace).reverse⟩

/-- Whether `small` occurs at the start of `big` (on characters). -/
def leadsWith : List Char → List Char → Bool
  | [], _ => true
  | _ :: _, [] => false
  | a :: as, b :: bs => a == b && leadsWith as bs

/-- Whether `needle` occurs as a contiguous substring (Python `in`). -/
def occursIn (needle : List Char) : List Char → Bool
  | [] => needle.isEmpty
  | b :: bs => leadsWith needle (b :: bs) || occursIn needle bs

/-- Numeric value of a digit run. -/
def digitsVal (ds : List Char) : ℕ :=
  ds.foldl (fun a c => 10 * a + (c.toNat - '0'.toNat)) 0

/-- `app.py` `commission_rate_from_gross_gm`: piecewise commission schedule
`g ≤ 0.20 → 0`; `0.20 < g < 0.30 → g − 0.20`; `g ≥ 0.30 → g/3`. -/
def commission_rate_from_gross_gm (gross_gm : ℚ) : ℚ :=
  if gross_gm ≤ 1/5 then 0
  else if gross_gm < 3/10 then gross_gm - 1/5
  else gross_gm / 3

/-- `core/pricing.py` `commission_rate_from_gross_gm`: same schedule written
with clamps (`min(max(g-0.20,0),0.10)` on the ramp, `0.10 + (g-0.30)/3`
above). -/
def commission_rate_core (gross_gm : ℚ) : ℚ :=
  if gross_gm ≤ 1/5 then 0
  else if gross_gm < 3/10 then min (max (gross_gm - 1/5) 0) (1/10)
  else 1/10 + max (gross_gm - 3/10) 0 / 3

/-- `app.py` `solve_revenue_from_commission`: branch-and-validate inversion of
the commission schedule with `1e-9` epsilon guards, clamping to the 20 % GM
boundary when no branch validates. -/
def solve_revenue_from_commission_app (comm_dollars cogs : ℚ) : ℚ :=
  let C := cogs
  let Comm := max 0 comm_dollars
  let rev3 := 3 * Comm + C
  let g3 := if rev3 ≤ 0 then 0 else 1 - C / rev3
  if 3/10 - feps ≤ g3 then rev3
  else
    let rev2 := (Comm + C) / (4/5)
    let g2 := if rev2 ≤ 0 then 0 else 1 - C / rev2
    if feps < 4/5 ∧ 1/5 + feps < g2 ∧ g2 < 3/10 - feps then rev2
    else C / max feps (1 - 1/5)

/-- `core/pricing.py` `solve_revenue_from_commission`: threshold form — zero
commission clamps to the 20 % boundary, commission below `COGS/7` inverts the
20–30 % ramp, at or above it the `g ≥ 30 %` branch. -/
def solve_revenue_from_commission_core (comm_dollars cogs : ℚ) : ℚ :=
  let C := cogs
  let K := comm_dollars
  if K ≤ 0 then max (C / (4/5)) C
  else if K < C / 7 then (K + C) / (4/5)
  else 3 * K + C

/-- `app.py` `_gm_band_label` (method, v2): clamp `g` to `[0, 0.95]`, then
`LOW!` below `0.30 − 1e-9`, `MID` up to `0.40 + 1e-9`, else `HIGH`.  (The
NaN/inf guard of the Python code has no counterpart on `ℚ`.) -/
def gm_band_label (g : ℚ) : String :=
  let gg := max 0 (min (19/20) g)
  if gg < 3/10 - feps then "LOW!"
  else if gg ≤ 2/5 + feps then "MID"
  else "HIGH"

/-- `app.py` inner `_gm_band` (handle_pdf_drop): the same bands without the
epsilon tolerance or clamp. -/
def gm_band_plain (gv : ℚ) : String :=
  if gv < 3/10 then "LOW!" else if gv ≤ 2/5 then "MID" else "HIGH"

/-- The costs block produced by `app.py`'s financial recompute. -/
structure CostsRollup where
  revenue_target : ℚ
  overhead_dollars : ℚ
  commission_total : ℚ
  projected_profit : ℚ
  gm_band : String
  deriving Repr, DecidableEq

/-- `app.py` recompute_pricing rollup (the canonical GM ↔ revenue identity,
`[BM-COMMISSION|single-source|apply|recompute_pricing]`): clamp the target GM
to `[0, 0.95]`, `revenue = round2(C / max(1e-9, 1−g))`, overhead and
commission from the revenue, profit as the remainder, band from
`_gm_band_label`.  (Modelled without a user commission override.) -/
def recompute_rollup (cogs oh_rate gm_target : ℚ) : CostsRollup :=
  let g := max 0 (min (19/20) gm_target)
  let denom := max feps (1 - g)
  let revenue_now := round2 (cogs / denom)
  let overhead_dollars := round2 (oh_rate * revenue_now)
  let comm_rate := commission_rate_from_gross_gm g
  let commission_now := round2 (revenue_now * comm_rate)
  let projected_profit := round2 (revenue_now - cogs - overhead_dollars - commission_now)
  { revenue_target := revenue_now
    overhead_dollars := overhead_dollars
    commission_total := commission_now
    projected_profit := projected_profit
    gm_band := gm_band_label g }

/-! ## Quantity engine (`engine.py`) -/

/-- `engine.py` `_LAP_REVEAL_TO_NOMINAL` reveal keys in dict insertion
order. -/
def lapRevealKeys : List ℚ := [4, 5, 6, 7, 8, 43/4]

/-- `engine.py` `_snap_reveal_to_catalog`: round the requested reveal to the
nearest quarter inch, then pick the first catalog reveal of minimal distance
(Python `min` keeps the first minimiser); both arms of the final 1/8-inch
tolerance check return the chosen key. -/
def snap_reveal_to_catalog (reveal_in : ℚ) : ℚ :=
  let r := (pyRound (reveal_in * 4) : ℚ) / 4
  let closest := lapRevealKeys.foldl (fun best k => if |k - r| < |best - r| then k else best) 4
  if |closest - r| ≤ 1/8 then closest else closest

/-- `engine.py` `WASTE_BASE_SIDING`. -/
def WASTE_BASE_SIDING : ℚ := 1/5

/-- `engine.py` `WASTE_COMPLEXITY.get(complexity, 0.0)`. -/
def waste_complexity (complexity : String) : ℚ :=
  if complexity = "Low" then 0
  else if complexity = "Med" then 3/100
  else if complexity = "High" then 7/100
  else 0

/-- `engine.py` `compute_estimate`'s `_canon` specialised to the complexity
choices: case- and whitespace-insensitive match against Low/Med/High,
defaulting to Low. -/
def canon_complexity (val : String) : String :=
  let v := pyLower (pyStrip val)
  if v = "low" then "Low"
  else if v = "med" then "Med"
  else if v = "high" then "High"
  else "Low"

/-- `engine.py` `_planks_for_area`: `0` for non-positive exposure, else
`max(0, int(round(area/exposure)))`. -/
def planks_for_area (area_sf exposure_in : ℚ) : ℤ :=
  if exposure_in ≤ 0 then 0 else max 0 (pyRound (area_sf / exposure_in))

/-- `engine.py` `compute_estimate`, Lap board fragment: waste from canonical
complexity, exposure snapped to the catalog and clamped to `[1, 12]`, net
planks from `_planks_for_area`, final count `ceil(net * (1 + waste))`. -/
def lap_boards (total_sf lap_reveal_in : ℚ) (complexity : String) : ℤ :=
  let waste_pct := WASTE_BASE_SIDING + waste_complexity (canon_complexity complexity)
  let exposure_in := max 1 (min 12 (snap_reveal_to_catalog lap_reveal_in))
  ⌈(planks_for_area total_sf exposure_in : ℚ) * (1 + waste_pct)⌉

/-! ## Catalog resolver (`core/catalog.py`) -/

/-- A value of a catalog item's `cost` dict: either a bare price or a
region-keyed tier (a nested dict). -/
inductive CostEntry where
  | price (p : ℚ)
  | tier (m : List (String × ℚ))
  deriving Repr, DecidableEq

/-- One record of the catalog's `items` map. -/
structure CatItem where
  uom : String
  cost : Option (List (String × CostEntry))
  deriving Repr, DecidableEq

/-- The JSON price catalog (`core/catalog.py` `Catalog.raw`), restricted to
the `items` table read by `item_cost`. -/
structure Catalog where
  items : List (String × CatItem)
  deriving Repr, DecidableEq

/-- Python `dict.get` on a string-keyed association list. -/
def alookup {α : Type} (m : List (String × α)) (k : String) : Option α :=
  (m.find? (fun p => p.1 == k)).map (fun p => p.2)

/-- Python truthiness of an optional integer (`None` and `0` are falsy). -/
def truthyInt : Option ℤ → Bool
  | none => false
  | some n => n != 0

/-- Python truthiness of an optional string (`None` and `""` are falsy). -/
def truthyStr : Option String → Bool
  | none => false
  | some s => s != ""

/-- `core/catalog.py` `Catalog.item_cost`: resolve fascia-width-keyed,
finish-keyed, or flat region pricing; a missing path raises a descriptive
`KeyError` (modelled as `Except.error` carrying the message).  A tier found
where a bare number is expected reproduces CPython's `float()` TypeError
message. -/
def item_cost (cat : Catalog) (item region : String)
    (finish : Option String) (fascia_width_in : Option ℤ) : Except String ℚ :=
  match alookup cat.items item with
  | none => .error ("Unknown item '" ++ item ++ "' in catalog")
  | some r =>
    match r.cost with
    | none => .error ("Item '" ++ item ++ "' has no 'cost' dict in catalog")
    | some cost =>
      if item = "fascia_12ft" ∧ truthyInt fascia_width_in then
        let w := min 12 (max 4 (fascia_width_in.getD 0))
        let key := "w" ++ toString w
        match alookup cost key with
        | some (.tier t) =>
          match alookup t region with
          | some p => .ok p
          | none => .error ("Missing fascia price for " ++ key ++ "/" ++ region)
        | _ => .error ("Missing fascia price for " ++ key ++ "/" ++ region)
      else if truthyStr finish ∧ (alookup cost (finish.getD "")).isSome then
        match alookup cost (finish.getD "") with
        | some (.tier t) =>
          match alookup t region with
          | some p => .ok p
          | none => .error ("Missing " ++ item ++ " price for finish=" ++
              finish.getD "" ++ " region=" ++ region)
        | _ => .error ("Missing " ++ item ++ " price for finish=" ++
            finish.getD "" ++ " region=" ++ region)
      else
        match alookup cost region with
        | some (.price p) => .ok p
        | some (.tier _) =>
          .error "float() argument must be a string or a real number, not 'dict'"
        | none => .error ("Missing " ++ item ++ " price for region=" ++ region)

/-- All prices contained in one cost entry. -/
def entryPrices : CostEntry → List ℚ
  | .price p => [p]
  | .tier m => m.map (fun q => q.2)

/-- Every price stored anywhere in the catalog. -/
def storedPrices (cat : Catalog) : List ℚ :=
  cat.items.flatMap (fun it =>
    match it.2.cost with
    | none => []
    | some cost => cost.flatMap (fun e => entryPrices e.2))

/-! ## Trade pricer (`trades/registry.py`) -/

/-- `trades/registry.py` `LineItem`. -/
structure LineItem where
  name : String
  qty : ℚ
  uom : String
  unit_cost : ℚ
  ext_cost : ℚ
  deriving Repr, DecidableEq

/-- One pending `_append_line` call inside `price_trade`: the item key,
quantity and variant flags passed to the helper. -/
structure AppendReq where
  item : String
  qty : ℚ
  finishKeyed : Bool
  fasciaKeyed : Bool
  surfaceKeyed : Bool
  surfaceValue : Option String
  deriving Repr, DecidableEq

/-- The effect of `cat.item_cost(item, region, finish=…, fascia_width_in=…,
surface=…)` as called from `trades/registry._append_line`.  The
`core/catalog.py` method signature has no `surface` keyword parameter, so the
call raises `TypeError` at argument binding, before the body runs, whatever
the argument values are. -/
def item_cost_call_from_registry (_cat : Catalog) (_item _region : String)
    (_finish : Option String) (_fascia_width_in : Option ℤ)
    (_surface : Option String) : Except String ℚ :=
  .error "item_cost() got an unexpected keyword argument 'surface'"

/-- `trades/registry.py` `_append_line`: skip non-positive quantities, read
the item's UoM from the raw table (empty when missing), resolve the unit
price via `cat.item_cost(..., surface=…)` under `except Exception:
unit_cost = 0.0`. -/
def append_line (cat : Catalog) (region finish : String) (fascia_w : ℤ)
    (req : AppendReq) : Option LineItem :=
  if req.qty ≤ 0 then none
  else
    let uom := match alookup cat.items req.item with
      | some r => r.uom
      | none => ""
    let unit_cost :=
      match item_cost_call_from_registry cat req.item region
          (if req.finishKeyed then some finish else none)
          (if req.fasciaKeyed then some fascia_w else none)
          (if req.surfaceKeyed then req.surfaceValue else none) with
      | .ok c => c
      | .error _ => 0
    some ⟨req.item, req.qty, uom, unit_cost, req.qty * unit_cost⟩

/-- Remove the first `'.'` (Python `s.replace(".", "", 1)`). -/
def removeFirstDot : List Char → List Char
  | [] => []
  | c :: cs => if c = '.' then cs else c :: removeFirstDot cs

/-- Python `float(s)` on the `digits [ '.' digits ]` strings accepted by
`_qty_from_expr`'s isdigit test. -/
def parseSimpleFloat (s : List Char) : ℚ :=
  let intPart := s.takeWhile (fun c => c ≠ '.')
  let rest := s.dropWhile (fun c => c ≠ '.')
  match rest with
  | [] => digitsVal intPart
  | _ :: frac => (digitsVal intPart : ℚ) + (digitsVal frac : ℚ) / (10 ^ frac.length)

/-- `trades/registry.py` `_qty_from_expr`: numeric literals (digits with at
most one dot) parse as floats; `outputs.<field>` reads the outputs record
(missing fields default to 0 via the caller-supplied total map); anything
else is 0. -/
def qty_from_expr (expr : String) (outputs : String → ℚ) : ℚ :=
  let s := pyStrip expr
  let stripped := removeFirstDot s.data
  if stripped ≠ [] ∧ stripped.all Char.isDigit then parseSimpleFloat s.data
  else if leadsWith "outputs.".data s.data then outputs ⟨s.data.drop 8⟩
  else 0

/-- `trades/registry.py` `TRIM_44_MAP`: 5/4 trim keys mapped to the parallel
4/4 family at the same nominal widths. -/
def TRIM_44_MAP : String → Option String
  | "trim4_12ft" => some "trim44_4_12ft"
  | "trim6_12ft" => some "trim44_6_12ft"
  | "trim8_12ft" => some "trim44_8_12ft"
  | "trim12_12ft" => some "trim44_12_12ft"
  | _ => none

/-- The 5/4 trim piece keys subject to the minimum-2 rule. -/
def trim54Keys : List String := ["trim4_12ft", "trim6_12ft", "trim8_12ft", "trim12_12ft"]

/-- The three Board & Batten spellings `price_trade` recognises. -/
def isBnBSiding (s : String) : Bool :=
  let st := pyLower (pyStrip s)
  st == "board & batten" || st == "board and batten" || st == "board &amp; batten"

/-- Inputs consumed by the include-expansion loop of `price_trade`. -/
structure TradeInputs where
  siding_type : String
  complexity : String
  facades_sf : ℚ
  trim_siding_sf : ℚ
  region : String
  finish : String
  fascia_width_in : ℤ
  deriving Repr, DecidableEq

/-- `trades/registry.py` `surface_default_44`: `cat.trim_families()` raises
`AttributeError` (no such method on `core/catalog.py.Catalog`), the `except`
arm leaves `trim_fams = {}`, and the `.get` chain falls back to the literal
default. -/
def surface_default_44 : String := "Rustic"

/-- `trades/registry.py` `_append_board_and_batten_materials`: 4×10 panels and
12-ft battens from the waste-inflated max of facade/trim SF. -/
def board_and_batten_reqs (inp : TradeInputs) : List AppendReq :=
  let base_sf := max inp.facades_sf inp.trim_siding_sf
  let waste := WASTE_BASE_SIDING + waste_complexity inp.complexity
  let sf_with_waste := base_sf * (1 + waste)
  let panels : ℤ := ⌈sf_with_waste / 40⌉
  let battens : ℤ := ⌈(max 0 panels : ℚ) * 3⌉
  (if 0 < panels then [⟨"bb_panel_4x10", (panels : ℚ), true, false, false, none⟩] else []) ++
  (if 0 < battens then [⟨"bb_batten_12ft", (battens : ℚ), true, false, false, none⟩] else [])

/-- One `includes` entry of a catalog assembly. -/
structure IncludeEntry where
  item : String
  qty : String
  finish_keyed : Bool
  fascia_width_keyed : Bool
  deriving Repr, DecidableEq

/-- The body of `price_trade`'s `for inc in includes` loop for a single
include: the `_append_line` requests it issues (zero-quantity includes are
skipped; `siding_sf` expands by siding type; 5/4 trim is remapped to the 4/4
family for Board & Batten and floored at 2 pieces everywhere). -/
def include_reqs (inp : TradeInputs) (outputs : String → ℚ)
    (inc : IncludeEntry) : List AppendReq :=
  let qty := qty_from_expr inc.qty outputs
  if qty = 0 then []
  else
    let st := pyLower (pyStrip inp.siding_type)
    if inc.item = "siding_sf" ∧ st = "lap" then
      let sku := if inp.finish = "ColorPlus" then "plank_8_25_cm_colorplus"
                 else "plank_8_25_cm_primed"
      let board_qty := pyRound (outputs "boards")
      if 0 < board_qty then [⟨sku, (board_qty : ℚ), false, false, false, none⟩] else []
    else if inc.item = "siding_sf" ∧ isBnBSiding inp.siding_type then
      board_and_batten_reqs inp
    else if isBnBSiding inp.siding_type ∧ (TRIM_44_MAP inc.item).isSome then
      let mapped := (TRIM_44_MAP inc.item).getD inc.item
      let qty_safe : ℤ := max 2 (pyRound qty)
      [⟨mapped, (qty_safe : ℚ), true, false, true, some surface_default_44⟩]
    else
      let qty2 := if inc.item ∈ trim54Keys then ((max 2 (pyRound qty) : ℤ) : ℚ) else qty
      [⟨inc.item, qty2, inc.finish_keyed, inc.fascia_width_keyed, false, none⟩]

/-! ## Coil split (`app.py` `split_color_coils`) -/

/-- `split_color_coils` `_is_coil`: "coil" (or the redundant "coil_roll")
occurs in the lower-cased text of the row's name field. -/
def is_coil (li : LineItem) : Bool :=
  let t := (pyLower li.name).data
  occursIn "coil".data t || occursIn "coil_roll".data t

/-- Aggregated coil quantity of `split_color_coils`: the sum of the coil
rows' quantities, each clamped below at 0. -/
def coil_total (items : List LineItem) : ℚ :=
  ((items.filter is_coil).map (fun li => max 0 li.qty)).sum

/-- The two color-row labels of `split_color_coils` ("`color` Trim Coil"),
with (Body)/(Trim) suffixes when they collide case-insensitively; empty
colors fall back to "Body"/"Trim". -/
def coil_labels (body_color trim_color : String) : String × String :=
  let bc := pyStrip (if body_color = "" then "Body" else body_color)
  let tc := pyStrip (if trim_color = "" then "Trim" else trim_color)
  let label_body0 := bc ++ " Trim Coil"
  let label_trim0 := tc ++ " Trim Coil"
  let collide := pyLower (pyStrip label_body0) = pyLower (pyStrip label_trim0)
  (if collide then label_body0 ++ " (Body)" else label_body0,
   if collide then label_trim0 ++ " (Trim)" else label_trim0)

/-- `app.py` `split_color_coils`: under a ColorPlus/Woodtone finish, replace
all coil rows by one body-color and one trim-color row, each with quantity
`max(1, ceil(total/4))`, carrying the first coil row's unit cost and UoM
(defaulting to "RL"), labelled by `coil_labels`.  (The first coil row's
stale `ext_cost` is kept, as the Python deepcopy path does.) -/
def split_color_coils (line_items : List LineItem)
    (finish body_color trim_color : String) : List LineItem :=
  let fin := pyLower (pyStrip finish)
  if ¬ (fin = "colorplus" ∨ fin = "woodtone") then line_items
  else if line_items = [] then line_items
  else
    match line_items.filter is_coil with
    | [] => line_items
    | base :: _ =>
      if coil_total line_items ≤ 0 then line_items
      else
        let pruned := line_items.filter (fun li => ! is_coil li)
        let per_color : ℤ := max 1 ⌈coil_total line_items / 4⌉
        let labels := coil_labels body_color trim_color
        let new_uom := if base.uom ≠ "" then base.uom else "RL"
        let body_li : LineItem :=
          ⟨labels.1, (per_color : ℚ), new_uom, base.unit_cost, base.ext_cost⟩
        let trim_li : LineItem :=
          ⟨labels.2, (per_color : ℚ), new_uom, base.unit_cost, base.ext_cost⟩
        pruned ++ [body_li, trim_li]

/-! ## Measurement parser (`engine.py` `extract_hover_totals`) -/

/-- Python `\w` (ASCII): letters, digits, underscore. -/
def isWordChar (c : Char) : Bool := c.isAlphanum || c = '_'

/-- Try the regex `\d+'\s*\d{1,2}"` anchored at the head of `cs`
(`engine.py` `_len_ftin`, regrouped by the inner `re.match`): a greedy digit
run, an apostrophe, optional whitespace, then two digits backtracking to one,
closed by a double quote.  Returns (feet, inches). -/
def parseFtInAt (cs : List Char) : Option (ℕ × ℕ) :=
  let ds := cs.takeWhile Char.isDigit
  let rest := cs.dropWhile Char.isDigit
  if ds = [] then none
  else
    match rest with
    | '\'' :: rest2 =>
      let rest3 := rest2.dropWhile pySpace
      match rest3 with
      | a :: b :: rest5 =>
        if a.isDigit then
          if b.isDigit then
            match rest5 with
            | '"' :: _ => some (digitsVal ds, 10 * (a.toNat - '0'.toNat) + (b.toNat - '0'.toNat))
            | _ => none
          else if b = '"' then some (digitsVal ds, a.toNat - '0'.toNat)
          else none
        else none
      | _ => none
    | _ => none

/-- Leftmost `\d+'\s*\d{1,2}"` match in a line (`re.search` semantics). -/
def findFtIn : List Char → Option (ℕ × ℕ)
  | [] => none
  | c :: cs =>
    match parseFtInAt (c :: cs) with
    | some r => some r
    | none => findFtIn cs

/-- Parse `([\d,]+(?:\.\d+)?)` anchored at the head; returns the value (with
commas dropped, as `_num_to_float` does) and the remainder.  The greedy runs
are deterministic here: shortening any of them leaves a digit, comma or dot
where the following `\s*`-plus-unit-word (or end-of-line) must match, which
always fails. -/
def parseNumAt (cs : List Char) : Option (ℚ × List Char) :=
  let run := cs.takeWhile (fun c => c.isDigit || c = ',')
  let rest := cs.dropWhile (fun c => c.isDigit || c = ',')
  if run = [] then none
  else
    let intVal : ℚ := digitsVal (run.filter Char.isDigit)
    match rest with
    | '.' :: rest2 =>
      let frac := rest2.takeWhile Char.isDigit
      let rest3 := rest2.dropWhile Char.isDigit
      if frac = [] then none
      else some (intVal + (digitsVal frac : ℚ) / (10 ^ frac.length), rest3)
    | _ => some (intVal, rest)

/-- Case-insensitively consume the given lowercase word. -/
def consumeWordCI : List Char → List Char → Option (List Char)
  | [], cs => some cs
  | _ :: _, [] => none
  | w :: ws, c :: cs => if c.toLower = w then consumeWordCI ws cs else none

/-- Word boundary `\b` following a word character. -/
def atBoundary : List Char → Bool
  | [] => true
  | c :: _ => !(isWordChar c)

/-- The alternation `(?:lf|linear\s*feet|ft|feet)\b` of `engine.py`
`_len_with_unit` (case-insensitive), tried at one position. -/
def lenUnitAt (cs : List Char) : Bool :=
  (match consumeWordCI "lf".data cs with
   | some r => atBoundary r
   | none => false) ||
  (match consumeWordCI "linear".data cs with
   | some r =>
     match consumeWordCI "feet".data (r.dropWhile pySpace) with
     | some r2 => atBoundary r2
     | none => false
   | none => false) ||
  (match consumeWordCI "ft".data cs with
   | some r => atBoundary r
   | none => false) ||
  (match consumeWordCI "feet".data cs with
   | some r => atBoundary r
   | none => false)

/-- Leftmost `NUM\s*(lf|linear feet|ft|feet)\b` match value (`engine.py`
`_len_with_unit` via `re.search`). -/
def findLenWithUnit : List Char → Option ℚ
  | [] => none
  | c :: cs =>
    match parseNumAt (c :: cs) with
    | some vr =>
      if lenUnitAt (vr.2.dropWhile pySpace) then some vr.1
      else findLenWithUnit cs
    | none => findLenWithUnit cs

/-- Per-line hit of `_scan_len_strict`: feet-inches first, converted
`feet + inches/12`, else a unit-suffixed number. -/
def lineLenHit (l : String) : Option ℚ :=
  match findFtIn l.data with
  | some fi => some ((fi.1 : ℚ) + (fi.2 : ℚ) / 12)
  | none => findLenWithUnit l.data

/-- First hit in a list of lines, else `0.0`. -/
def firstLenHit : List String → ℚ
  | [] => 0
  | l :: ls =>
    match lineLenHit l with
    | some v => v
    | none => firstLenHit ls

/-- `engine.py` `_scan_len_strict(lines, idx, lookahead)`: scan the header
line, then the following `lookahead` lines (bounded by the list length),
returning the first feet-inches or unit-suffixed value, else `0.0`. -/
def scan_len_strict (lines : List String) (idx lookahead : ℕ) : ℚ :=
  match lineLenHit (lines.getD idx "") with
  | some v => v
  | none =>
    firstLenHit ((lines.drop (idx + 1)).take (min (idx + 1 + lookahead) lines.length - (idx + 1)))

/-- The strict pass of `_scan_len_within_block`: first index in the block
whose strict scan (lookahead 1) is non-zero. -/
def firstNonzeroStrict (lines : List String) : List ℕ → Option ℚ
  | [] => none
  | j :: js =>
    let v := scan_len_strict lines j 1
    if v ≠ 0 then some v else firstNonzeroStrict lines js

/-- `engine.py` `_bare_number` full-line match `^\s*NUM\s*$`. -/
def bareNumberOf (l : String) : Option ℚ :=
  match parseNumAt (l.data.dropWhile pySpace) with
  | some vr => if vr.2.dropWhile pySpace = [] then some vr.1 else none
  | none => none

/-- The bare-number pass of `_scan_len_within_block`: first full-line bare
number within the sanity bounds. -/
def firstBare (lines : List String) (bare_min bare_max : ℚ) : List ℕ → Option ℚ
  | [] => none
  | j :: js =>
    match bareNumberOf (lines.getD j "") with
    | some n =>
      if bare_min ≤ n ∧ n ≤ bare_max then some n
      else firstBare lines bare_min bare_max js
    | none => firstBare lines bare_min bare_max js

/-- `engine.py` `_scan_len_within_block` (no preferred line, bare numbers
allowed): the strict pass over `[start, e)`, then the bare-number fallback,
else `0.0`. -/
def scan_len_within_block (lines : List String) (start e : ℕ)
    (bare_min bare_max : ℚ) : ℚ :=
  match firstNonzeroStrict lines (List.range' start (e - start)) with
  | some v => v
  | none =>
    match firstBare lines bare_min bare_max (List.range' start (e - start)) with
    | some n => n
    | none => 0

/-- Enumeration core of `engine.py` `_find_first`. -/
def find_first_from (variants : List String) : ℕ → List String → Option ℕ
  | _, [] => none
  | i, l :: ls =>
    if variants.any (fun v => occursIn v.data l.data) then some i
    else find_first_from variants (i + 1) ls

/-- `engine.py` `_find_first`: index of the first line containing any of the
synonym phrases. -/
def find_first (low_lines : List String) (variants : List String) : Option ℕ :=
  find_first_from variants 0 low_lines

/-- First index among `idxs` whose line contains one of the section labels
(the loop of `engine.py` `_find_under_block`). -/
def first_label_idx (low_lines : List String) (end_labels : List String) : List ℕ → Option ℕ
  | [] => none
  | j :: js =>
    if end_labels.any (fun lbl => occursIn lbl.data (low_lines.getD j "").data) then some j
    else first_label_idx low_lines end_labels js

/-- `engine.py` `_find_under_block`: the block ends at the first following
line (within the lookahead window) containing a known section label. -/
def find_under_block (low_lines : List String) (start_idx : ℕ)
    (end_labels : List String) (lookahead : ℕ) : ℕ × ℕ :=
  let e0 := min low_lines.length (start_idx + 1 + lookahead)
  let idxs := List.range' (start_idx + 1) (e0 - (start_idx + 1))
  let e := match first_label_idx low_lines end_labels idxs with
    | some j => j
    | none => e0
  (start_idx, e)

/-- Python `str.splitlines` restricted to `\n` separators (a trailing empty
segment is produced where splitlines would omit it, but blank lines are
filtered out immediately afterwards). -/
def splitNlAux : List Char → List Char → List (List Char)
  | [], acc => [acc.reverse]
  | c :: cs, acc =>
    if c = '\n' then acc.reverse :: splitNlAux cs [] else splitNlAux cs (c :: acc)

/-- Split a string into lines at newline characters. -/
def splitNl (s : String) : List String := (splitNlAux s.data []).map List.asString

/-- Collapse runs of spaces/tabs to a single space
(`re.sub(r"[ \t]+", " ", l)`). -/
def collapseWsAux : Bool → List Char → List Char
  | _, [] => []
  | prevSp, c :: cs =>
    if c = ' ' || c = '\t' then
      if prevSp then collapseWsAux true cs else ' ' :: collapseWsAux true cs
    else c :: collapseWsAux false cs

/-- Whitespace collapsing on strings. -/
def collapseWs (s : String) : String := ⟨collapseWsAux false s.data⟩

/-- The eaves header synonyms of `extract_hover_totals`. -/
def eavesVariants : List String :=
  ["eaves fascia", "eave fascia", "eaves", "total eaves", "eave length"]

/-- The section labels terminating an eaves block. -/
def eavesEndLabels : List String :=
  ["rakes", "corners", "siding waste", "soffit", "roof", "drip edge", "area", "openings"]

/-- `engine.py` `extract_hover_totals`, eaves fragment: non-blank lines with
whitespace collapsed, the first line containing an eaves synonym opens a
block bounded by the next section label (lookahead 40), scanned for a length
with bare-number fallback (bounds 1–5000). -/
def extract_eave_fascia (pdf_text : String) : ℚ :=
  let raw_lines := (splitNl pdf_text).filter (fun l => l.data.any (fun c => !(pySpace c)))
  let lines := raw_lines.map collapseWs
  let low := lines.map pyLower
  match find_first low eavesVariants with
  | none => 0
  | some idx =>
    let se := find_under_block low idx eavesEndLabels 40
    scan_len_within_block lines se.1 se.2 1 5000

/-! ## Helper lemmas -/

/-- Code point of the digit zero. -/
theorem toNat_c0 : '0'.toNat = 48 := rfl

/-- Code point of the digit one. -/
theorem toNat_c1 : '1'.toNat = 49 := rfl

/-- Code point of the digit three. -/
theorem toNat_c3 : '3'.toNat = 51 := rfl

/-- Code point of the digit six. -/
theorem toNat_c6 : '6'.toNat = 54 := rfl

/-! ## Claim C2 — commission-rate schedule -/

/-- Claim C2: `commission_rate_from_gross_gm` is 0 for `g ≤ 0.20`, `g − 0.20`
on `0.20 < g < 0.30`, and `g/3` for `g ≥ 0.30`; the `core/pricing.py` copy
computes the same function; the schedule is non-decreasing on `[0, 1]` and
1-Lipschitz around both breakpoints (hence continuous there), with
`f(0.20)=0`, `f(0.21)=0.01`, `f(0.25)=0.05`, `f(0.30)=0.10`, `f(0.33)=0.11`,
`f(0.40)=2/15=0.13333…`. -/
theorem commission_rate_schedule :
    (∀ g : ℚ, g ≤ 1/5 → commission_rate_from_gross_gm g = 0) ∧
    (∀ g : ℚ, 1/5 < g → g < 3/10 → commission_rate_from_gross_gm g = g - 1/5) ∧
    (∀ g : ℚ, 3/10 ≤ g → commission_rate_from_gross_gm g = g / 3) ∧
    (∀ g : ℚ, commission_rate_core g = commission_rate_from_gross_gm g) ∧
    (∀ x y : ℚ, 0 ≤ x → x ≤ y → y ≤ 1 →
      commission_rate_from_gross_gm x ≤ commission_rate_from_gross_gm y) ∧
    (∀ g : ℚ, |commission_rate_from_gross_gm g - commission_rate_from_gross_gm (1/5)| ≤ |g - 1/5|) ∧
    (∀ g : ℚ, |commission_rate_from_gross_gm g - commission_rate_from_gross_gm (3/10)| ≤ |g - 3/10|) ∧
    commission_rate_from_gross_gm (1/5) = 0 ∧
    commission_rate_from_gross_gm (21/100) = 1/100 ∧
    commission_rate_from_gross_gm (1/4) = 1/20 ∧
    commission_rate_from_gross_gm (3/10) = 1/10 ∧
    commission_rate_from_gross_gm (33/100) = 11/100 ∧
    commission_rate_from_gross_gm (2/5) = 2/15 := by
  have hval : commission_rate_from_gross_gm (1/5) = 0 := by
    norm_num [commission_rate_from_gross_gm]
  have hval3 : commission_rate_from_gross_gm (3/10) = 1/10 := by
    norm_num [commission_rate_from_gross_gm]
  refine ⟨?_, ?_, ?_, ?_, ?_, ?_, ?_, hval, ?_, ?_, hval3, ?_, ?_⟩
  · intro g hg
    simp only [commission_rate_from_gross_gm, if_pos hg]
  · intro g h1 h2
    simp only [commission_rate_from_gross_gm]
    rw [if_neg (by linarith), if_pos h2]
  · intro g hg
    simp only [commission_rate_from_gross_gm]
    rw [if_neg (by linarith), if_neg (by linarith)]
  · intro g
    simp only [commission_rate_core, commission_rate_from_gross_gm]
    split_ifs with h1 h2
    · rfl
    · push_neg at h1
      rw [max_eq_left (by linarith), min_eq_left (by linarith)]
    · push_neg at h1 h2
      rw [max_eq_left (by linarith)]
      ring
  · intro x y hx hxy hy
    simp only [commission_rate_from_gross_gm]
    split_ifs <;> push_neg at * <;> linarith
  · intro g
    rw [hval, sub_zero, abs_le]
    have h1 := le_abs_self (g - 1/5)
    have h2 := neg_abs_le (g - 1/5)
    have h3 := abs_nonneg (g - 1/5)
    simp only [commission_rate_from_gross_gm]
    split_ifs <;> constructor <;> push_neg at * <;> linarith
  · intro g
    rw [hval3, abs_le]
    have h1 := le_abs_self (g - 3/10)
    have h2 := neg_abs_le (g - 3/10)
    have h3 := abs_nonneg (g - 3/10)
    simp only [commission_rate_from_gross_gm]
    split_ifs <;> constructor <;> push_neg at * <;> linarith
  · norm_num [commission_rate_from_gross_gm]
  · norm_num [commission_rate_from_gross_gm]
  · norm_num [commission_rate_from_gross_gm]
  · norm_num [commission_rate_from_gross_gm]

/-- Witness for C2 at concrete inputs: monotonicity from 0.25 to 0.40 and the
ramp formula at 0.25. -/
theorem commission_rate_schedule_witness :
    commission_rate_from_gross_gm (1/4) ≤ commission_rate_from_gross_gm (2/5) ∧
    commission_rate_from_gross_gm (1/4) = 1/4 - 1/5 :=
  ⟨commission_rate_schedule.2.2.2.2.1 (1/4) (2/5) (by norm_num) (by norm_num) (by norm_num),
   commission_rate_schedule.2.1 (1/4) (by norm_num) (by norm_num)⟩

/-! ## Claim C4 — gross-margin band label -/

/-- Counterexample to C4 as stated: for `g = 0.10 < 0.30` the code's label is
the string `"LOW!"`, not `"LOW"`. -/
theorem gm_band_label_cx :
    gm_band_label (1/10) = "LOW!" ∧ gm_band_label (1/10) ≠ "LOW" := by
  have h : gm_band_label (1/10) = "LOW!" := by
    rw [gm_band_label, min_eq_right (by norm_num), max_eq_right (by norm_num),
      if_pos (by norm_num [feps])]
  exact ⟨h, by rw [h]; decide⟩

/-- Claim C4 amended: the band label is `"LOW!"` (with exclamation mark)
below `0.30 − 1e-9`, `"MID"` up to `0.40 + 1e-9`, and `"HIGH"` above, for
every rational input (the internal clamp to `[0, 0.95]` never changes the
band). -/
theorem gm_band_label_bands (g : ℚ) :
    gm_band_label g =
      (if g < 3/10 - feps then "LOW!" else if g ≤ 2/5 + feps then "MID" else "HIGH") := by
  rw [gm_band_label]
  rcases le_or_lt g 0 with hg | hg
  · rw [min_eq_right (by norm_num [feps]; linarith), max_eq_left (by linarith),
      if_pos (by norm_num [feps]), if_pos (by norm_num [feps]; linarith)]
  · rcases le_or_lt g (19/20) with hg2 | hg2
    · rw [min_eq_right hg2, max_eq_right (by linarith)]
    · rw [min_eq_left (by linarith), max_eq_right (by norm_num),
        if_neg (by norm_num [feps]), if_neg (by norm_num [feps]),
        if_neg (by norm_num [feps]; linarith), if_neg (by norm_num [feps]; linarith)]

/-! ## Claim C5 — Lap waste and plank counts -/

/-- Claim C5: the effective waste fraction is 0.20 plus {Low: 0.00, Med: 0.03,
High: 0.07}; net planks are `round(SF / exposure_in)` (floored at 0, with the
snapped-and-clamped exposure); the final board count is
`ceil(net × (1 + waste))`; and 700 SF at a 7-inch exposure with Low
complexity yields net 100 and final 120 boards. -/
theorem lap_boards_formula :
    (WASTE_BASE_SIDING + waste_complexity (canon_complexity "Low") = 1/5) ∧
    (WASTE_BASE_SIDING + waste_complexity (canon_complexity "Med") = 23/100) ∧
    (WASTE_BASE_SIDING + waste_complexity (canon_complexity "High") = 27/100) ∧
    (∀ sf e : ℚ, 0 < e → planks_for_area sf e = max 0 (pyRound (sf / e))) ∧
    (∀ sf reveal : ℚ, ∀ c : String,
      lap_boards sf reveal c =
        ⌈((max 0 (pyRound (sf / max 1 (min 12 (snap_reveal_to_catalog reveal)))) : ℤ) : ℚ) *
          (1 + (WASTE_BASE_SIDING + waste_complexity (canon_complexity c)))⌉) ∧
    snap_reveal_to_catalog 7 = 7 ∧
    planks_for_area 700 7 = 100 ∧
    lap_boards 700 7 "Low" = 120 := by
  have hsnap : snap_reveal_to_catalog 7 = 7 := by
    norm_num [snap_reveal_to_catalog, lapRevealKeys, List.foldl, pyRound, min_def, max_def, abs]
  have hexp : ∀ reveal : ℚ, (0:ℚ) < max 1 (min 12 (snap_reveal_to_catalog reveal)) := by
    intro reveal
    calc (0:ℚ) < 1 := one_pos
    _ ≤ max 1 (min 12 (snap_reveal_to_catalog reveal)) := le_max_left _ _
  refine ⟨?_, ?_, ?_, ?_, ?_, hsnap, ?_, ?_⟩
  · norm_num [WASTE_BASE_SIDING, waste_complexity, show canon_complexity "Low" = "Low" from by decide]
  · have h : waste_complexity (canon_complexity "Med") = 3/100 := by
      rw [show canon_complexity "Med" = "Med" from by decide, waste_complexity,
        if_neg (by decide), if_pos rfl]
    rw [h, WASTE_BASE_SIDING]
    norm_num
  · have h : waste_complexity (canon_complexity "High") = 7/100 := by
      rw [show canon_complexity "High" = "High" from by decide, waste_complexity,
        if_neg (by decide), if_neg (by decide), if_pos rfl]
    rw [h, WASTE_BASE_SIDING]
    norm_num
  · intro sf e he
    simp only [planks_for_area]
    rw [if_neg (not_le.mpr he)]
  · intro sf reveal c
    simp only [lap_boards, planks_for_area]
    rw [if_neg (not_le.mpr (hexp reveal))]
  · norm_num [planks_for_area, pyRound, min_def, max_def]
  · have h1 : canon_complexity "Low" = "Low" := by decide
    simp only [lap_boards, h1, waste_complexity, WASTE_BASE_SIDING, hsnap]
    norm_num [planks_for_area, pyRound, min_def, max_def]

/-- Witness for C5: the net-plank formula at 700 SF and 7-inch exposure. -/
theorem lap_boards_formula_witness :
    planks_for_area 700 7 = max 0 (pyRound (700 / 7)) :=
  lap_boards_formula.2.2.2.1 700 7 (by norm_num)

/-! ## Claim C3 — financial rollup -/

/-- Claim C3: for every cost `C`, overhead rate `r` and target margin
`g ∈ [0, 0.95]`, the recompute rollup prices revenue as `C / (1 − g)`,
overhead as `r × revenue`, commission as `commission_rate(g) × revenue`, and
projected profit as `revenue − C − overhead − commission`, each rounded to
cents, with the band label from `g`. -/
theorem rollup_formulas (C r g : ℚ) (h0 : 0 ≤ g) (h1 : g ≤ 19/20) :
    recompute_rollup C r g =
      { revenue_target := round2 (C / (1 - g))
        overhead_dollars := round2 (r * round2 (C / (1 - g)))
        commission_total := round2 (round2 (C / (1 - g)) * commission_rate_from_gross_gm g)
        projected_profit := round2 (round2 (C / (1 - g)) - C - round2 (r * round2 (C / (1 - g)))
          - round2 (round2 (C / (1 - g)) * commission_rate_from_gross_gm g))
        gm_band := gm_band_label g } := by
  have hc : max 0 (min (19/20) g) = g := by
    rw [min_eq_right h1, max_eq_right h0]
  have hd : max feps (1 - g) = 1 - g := by
    rw [max_eq_right]
    norm_num [feps]
    linarith
  simp only [recompute_rollup, hc, hd]

/-- Witness for C3: the rollup at `C = 1300`, `r = 0.20`, `g = 0.35` prices
revenue 2000, overhead 400, commission 233.33, profit 66.67, band MID. -/
theorem rollup_formulas_witness :
    recompute_rollup 1300 (1/5) (7/20) =
      { revenue_target := 2000
        overhead_dollars := 400
        commission_total := 23333/100
        projected_profit := 6667/100
        gm_band := "MID" } := by
  rw [rollup_formulas 1300 (1/5) (7/20) (by norm_num) (by norm_num)]
  norm_num [round2, pyRound, commission_rate_from_gross_gm, gm_band_label, feps,
    min_def, max_def, CostsRollup.mk.injEq]

/-! ## Claim C1 — commission round-trip -/

/-- Branch evaluation: the app inversion takes its `g ≥ 30 %` branch. -/
theorem app_branch3 (K C : ℚ) (hK : 0 ≤ K) (h3 : 0 < 3 * K + C)
    (hg : 3/10 - feps ≤ 1 - C / (3 * K + C)) :
    solve_revenue_from_commission_app K C = 3 * K + C := by
  simp only [solve_revenue_from_commission_app]
  rw [max_eq_right hK, if_neg (not_le.mpr h3), if_pos hg]

/-- Branch evaluation: the app inversion takes its 20–30 % ramp branch. -/
theorem app_branch2 (K C : ℚ) (hK : 0 ≤ K) (h3 : 0 < 3 * K + C)
    (hg3 : 1 - C / (3 * K + C) < 3/10 - feps)
    (h2 : 0 < (K + C) / (4/5))
    (hg2a : 1/5 + feps < 1 - C / ((K + C) / (4/5)))
    (hg2b : 1 - C / ((K + C) / (4/5)) < 3/10 - feps) :
    solve_revenue_from_commission_app K C = (K + C) / (4/5) := by
  simp only [solve_revenue_from_commission_app]
  rw [max_eq_right hK, if_neg (not_le.mpr h3), if_neg (not_le.mpr hg3),
    if_neg (not_le.mpr h2), if_pos ⟨by norm_num [feps], hg2a, hg2b⟩]

/-- Branch evaluation: the app inversion clamps to the 20 % GM boundary. -/
theorem app_branch_clamp (K C : ℚ) (hK : 0 ≤ K) (h3 : 0 < 3 * K + C)
    (hg3 : 1 - C / (3 * K + C) < 3/10 - feps)
    (h2 : 0 < (K + C) / (4/5))
    (hg2 : ¬ (1/5 + feps < 1 - C / ((K + C) / (4/5)) ∧
              1 - C / ((K + C) / (4/5)) < 3/10 - feps)) :
    solve_revenue_from_commission_app K C = C / (4/5) := by
  simp only [solve_revenue_from_commission_app]
  rw [max_eq_right hK, if_neg (not_le.mpr h3), if_neg (not_le.mpr hg3),
    if_neg (not_le.mpr h2), if_neg (fun hcon => hg2 ⟨hcon.2.1, hcon.2.2⟩),
    max_eq_right (by norm_num [feps] : feps ≤ 1 - 1/5)]
  norm_num

/-- Branch evaluation: the core inversion at non-positive commission. -/
theorem core_branch_zero (K C : ℚ) (hK : K ≤ 0) (hC : 0 < C) :
    solve_revenue_from_commission_core K C = C / (4/5) := by
  simp only [solve_revenue_from_commission_core]
  rw [if_pos hK, max_eq_left]
  rw [le_div_iff₀ (by norm_num : (0:ℚ) < 4/5)]
  linarith

/-- Branch evaluation: the core inversion on the ramp. -/
theorem core_branch_ramp (K C : ℚ) (hK : 0 < K) (h : K < C / 7) :
    solve_revenue_from_commission_core K C = (K + C) / (4/5) := by
  simp only [solve_revenue_from_commission_core]
  rw [if_neg (not_le.mpr hK), if_pos h]

/-- Branch evaluation: the core inversion at or above the COGS/7 threshold. -/
theorem core_branch3 (K C : ℚ) (hK : 0 < K) (h : C / 7 ≤ K) :
    solve_revenue_from_commission_core K C = 3 * K + C := by
  simp only [solve_revenue_from_commission_core]
  rw [if_neg (not_le.mpr hK), if_neg (not_lt.mpr h)]

/-- Counterexample to C1 as stated: at `C = 1`, `g = 0.10` (inside `[0, 0.95]`
and away from every clamp boundary), the commission is 0, both inversions
return 1.25 (the 20 % clamp) while the revenue is 10/9 ≈ 1.111 — the
round-trip misses by 5/36, far beyond floating tolerance. -/
theorem commission_roundtrip_cx :
    commission_rate_from_gross_gm (1/10) * ((1:ℚ) / (1 - 1/10)) = 0 ∧
    solve_revenue_from_commission_app
      (commission_rate_from_gross_gm (1/10) * ((1:ℚ) / (1 - 1/10))) 1 = 5/4 ∧
    solve_revenue_from_commission_core
      (commission_rate_from_gross_gm (1/10) * ((1:ℚ) / (1 - 1/10))) 1 = 5/4 ∧
    (1:ℚ) / (1 - 1/10) = 10/9 ∧
    |(5/4 : ℚ) - 10/9| = 5/36 ∧ (1/8 : ℚ) < 5/36 := by
  have hrate : commission_rate_from_gross_gm (1/10) * ((1:ℚ) / (1 - 1/10)) = 0 := by
    norm_num [commission_rate_from_gross_gm]
  refine ⟨hrate, ?_, ?_, by norm_num, by rw [abs_of_nonneg (by norm_num)]; norm_num, by norm_num⟩
  · rw [hrate]
    have h := app_branch_clamp 0 1 le_rfl (by norm_num) (by norm_num [feps])
      (by norm_num) (by norm_num [feps])
    rw [h]
    norm_num
  · rw [hrate, core_branch_zero 0 1 le_rfl (by norm_num)]
    norm_num

/-- Claim C1 amended: for every cost `C > 0` and margin `g ∈ [0.20, 0.95]`,
with `revenue = C/(1−g)` and `commission = rate(g) × revenue`, the
`core/pricing.py` inversion returns the revenue exactly; the `app.py`
inversion does too, except inside the `1e-9` epsilon-guard bands just above
`0.20` and just below `0.30` (where it clamps).  For `g < 0.20` the
commission is 0 and both inversions return the `g = 0.20` clamp `C/0.8`
instead of the revenue (see the counterexample). -/
theorem commission_roundtrip (C g : ℚ) (hC : 0 < C) (hg0 : 1/5 ≤ g) (hg1 : g ≤ 19/20)
    (hlo : g = 1/5 ∨ 1/5 + feps < g) (hhi : g < 3/10 - feps ∨ 3/10 ≤ g) :
    solve_revenue_from_commission_core
      (commission_rate_from_gross_gm g * (C / (1 - g))) C = C / (1 - g) ∧
    solve_revenue_from_commission_app
      (commission_rate_from_gross_gm g * (C / (1 - g))) C = C / (1 - g) := by
  have hfe : feps = 1/1000000000 := rfl
  have h1g : 0 < 1 - g := by linarith
  have hR : 0 < C / (1 - g) := div_pos hC h1g
  have hCR : (1 - g) * (C / (1 - g)) = C := by field_simp
  rcases hlo with hg5 | hg5
  · -- g = 0.20 exactly: commission 0, both clamp to C/0.8 = revenue.
    subst hg5
    have hrate : commission_rate_from_gross_gm (1/5) * (C / (1 - 1/5)) = 0 := by
      norm_num [commission_rate_from_gross_gm]
    rw [hrate]
    have hCC : C / ((0 + C) / (4/5 : ℚ)) = 4/5 := by
      rw [zero_add, div_div_eq_mul_div, mul_comm, mul_div_assoc, div_self (ne_of_gt hC), mul_one]
    constructor
    · rw [core_branch_zero 0 C le_rfl hC]
      norm_num
    · rw [app_branch_clamp 0 C le_rfl (by linarith)
        (by rw [show (3:ℚ) * 0 + C = C by ring, div_self (ne_of_gt hC)]; norm_num [hfe])
        (by positivity)
        (by rw [hCC]; norm_num [hfe])]
      norm_num
  · rcases hhi with hgu' | hgl'
    · -- the open ramp, away from both epsilon bands
      have hgl : 1/5 < g := by rw [hfe] at hg5; linarith
      have hgu : g < 3/10 := by rw [hfe] at hgu'; linarith
      have hrate : commission_rate_from_gross_gm g = g - 1/5 := by
        rw [commission_rate_from_gross_gm, if_neg (not_le.mpr hgl), if_pos hgu]
      rw [hrate]
      have hC' : C ≠ 0 := ne_of_gt hC
      have h1g' : (1 - g) ≠ 0 := ne_of_gt h1g
      have hK : 0 < (g - 1/5) * (C / (1 - g)) := by
        apply mul_pos (by linarith) hR
      have hKC : (g - 1/5) * (C / (1 - g)) + C = (4/5) * (C / (1 - g)) := by
        nth_rewrite 2 [← hCR]
        ring
      have hrev2 : ((g - 1/5) * (C / (1 - g)) + C) / (4/5 : ℚ) = C / (1 - g) := by
        rw [hKC, mul_div_cancel_left₀ _ (by norm_num : (4/5 : ℚ) ≠ 0)]
      have h3v : 3 * ((g - 1/5) * (C / (1 - g))) + C = (2*g + 2/5) * (C / (1 - g)) := by
        nth_rewrite 2 [← hCR]
        ring
      have hden : 0 < 2*g + 2/5 := by linarith
      have hden' : (2*g + 2/5) ≠ 0 := ne_of_gt hden
      have h3 : 0 < 3 * ((g - 1/5) * (C / (1 - g))) + C := by
        rw [h3v]
        positivity
      have hg3val : C / ((2*g + 2/5) * (C / (1 - g))) = (1 - g) / (2*g + 2/5) := by
        rw [div_eq_div_iff (by positivity : ((2*g + 2/5) * (C / (1 - g))) ≠ 0) hden']
        field_simp
        ring
      have hg2val : C / (C / (1 - g)) = 1 - g := by
        rw [div_div_eq_mul_div, mul_comm, mul_div_assoc, div_self hC', mul_one]
      constructor
      · rw [core_branch_ramp _ _ hK ?_, hrev2]
        have key := mul_pos hR (show (0:ℚ) < (1 - g) - 7*(g - 1/5) by linarith)
        rw [lt_div_iff₀ (by norm_num : (0:ℚ) < 7)]
        nlinarith [hCR, key]
      · rw [app_branch2 _ _ (le_of_lt hK) h3 ?_ ?_ ?_ ?_, hrev2]
        · rw [h3v, hg3val]
          rw [sub_lt_comm, lt_div_iff₀ hden, hfe]
          linarith
        · rw [hrev2]
          exact div_pos hC h1g
        · rw [hrev2, hg2val, sub_sub_cancel]
          exact hg5
        · rw [hrev2, hg2val, sub_sub_cancel]
          exact hgu'
    · -- g ≥ 0.30: the exact region-3 branch
      have hg0' : 0 < g := by linarith
      have hC' : C ≠ 0 := ne_of_gt hC
      have hrate : commission_rate_from_gross_gm g = g / 3 := by
        rw [commission_rate_from_gross_gm, if_neg (by linarith), if_neg (not_lt.mpr hgl')]
      rw [hrate]
      have hK : 0 < (g / 3) * (C / (1 - g)) := by positivity
      have h3v : 3 * ((g / 3) * (C / (1 - g))) + C = C / (1 - g) := by
        nth_rewrite 2 [← hCR]
        ring
      have hg2val : C / (C / (1 - g)) = 1 - g := by
        rw [div_div_eq_mul_div, mul_comm, mul_div_assoc, div_self hC', mul_one]
      constructor
      · rw [core_branch3 _ _ hK ?_, h3v]
        have key := mul_nonneg (le_of_lt hR) (show (0:ℚ) ≤ 7*(g/3) - (1 - g) by linarith)
        rw [div_le_iff₀ (by norm_num : (0:ℚ) < 7)]
        nlinarith [hCR, key]
      · rw [app_branch3 _ _ (le_of_lt hK) (by rw [h3v]; exact hR) ?_, h3v]
        rw [h3v, hg2val, sub_sub_cancel, hfe]
        linarith

/-- Witness for C1 at `C = 1`, `g = 0.25`: both inversions return the revenue
4/3 exactly. -/
theorem commission_roundtrip_witness :
    solve_revenue_from_commission_core
      (commission_rate_from_gross_gm (1/4) * ((1:ℚ) / (1 - 1/4))) 1 = (1:ℚ) / (1 - 1/4) ∧
    solve_revenue_from_commission_app
      (commission_rate_from_gross_gm (1/4) * ((1:ℚ) / (1 - 1/4))) 1 = (1:ℚ) / (1 - 1/4) :=
  commission_roundtrip 1 (1/4) (by norm_num) (by norm_num) (by norm_num)
    (Or.inr (by norm_num [feps])) (Or.inl (by norm_num [feps]))

/-! ## Claim C10 — agreement of the two inversions -/

/-- Counterexample to C10 as stated: at `COGS = 1` and commission `1e-10`,
the app.py inversion (whose epsilon guards reject both regions) clamps to
1.25 while the core/pricing.py inversion returns `(1e-10 + 1)/0.8`; the two
results differ. -/
theorem solve_agreement_cx :
    solve_revenue_from_commission_app (1/10000000000) 1 = 5/4 ∧
    solve_revenue_from_commission_core (1/10000000000) 1 = 10000000001/8000000000 ∧
    (5/4 : ℚ) ≠ 10000000001/8000000000 := by
  refine ⟨?_, ?_, by norm_num⟩
  · rw [app_branch_clamp (1/10000000000) 1 (by norm_num) (by norm_num) (by norm_num [feps])
      (by norm_num) (by norm_num [feps])]
    norm_num
  · rw [core_branch_ramp (1/10000000000) 1 (by norm_num) (by norm_num)]
    norm_num

/-- Claim C10 amended: the two inversions agree at zero commission, at or
above the `COGS/7` threshold, and on the whole ramp outside two bands of
relative width about `1e-9` at its ends (the app.py epsilon guards); inside
those guard bands they differ (see the counterexample). -/
theorem solve_agreement (C K : ℚ) (hC : 0 < C)
    (h : K = 0 ∨ (2 * feps * C ≤ K ∧ K ≤ (1/7 - 2 * feps) * C) ∨ C / 7 ≤ K) :
    solve_revenue_from_commission_app K C = solve_revenue_from_commission_core K C := by
  have hfe : feps = 1/1000000000 := rfl
  rcases h with h0 | ⟨hband1, hband2⟩ | h7
  · subst h0
    rw [core_branch_zero 0 C le_rfl hC,
      app_branch_clamp 0 C le_rfl (by linarith)
        (by rw [show (3:ℚ) * 0 + C = C by ring, div_self (ne_of_gt hC)]; norm_num [hfe])
        (by positivity)
        (by rw [zero_add, div_div_eq_mul_div, mul_comm, mul_div_assoc,
              div_self (ne_of_gt hC), mul_one]
            norm_num [hfe])]
  · rw [hfe] at hband1 hband2
    have hK : 0 < K := by linarith
    have h3 : 0 < 3 * K + C := by linarith
    have hKC : (0:ℚ) < K + C := by linarith
    have h2 : 0 < (K + C) / (4/5 : ℚ) := by positivity
    have hrev2 : C / ((K + C) / (4/5 : ℚ)) = (4/5) * C / (K + C) := by
      rw [div_div_eq_mul_div, mul_comm]
    have hg3 : 1 - C / (3 * K + C) < 3/10 - feps := by
      rw [sub_lt_comm, lt_div_iff₀ h3, hfe]
      linarith
    have hg2a : 1/5 + feps < 1 - C / ((K + C) / (4/5 : ℚ)) := by
      rw [hrev2, lt_sub_comm, div_lt_iff₀ hKC, hfe]
      linarith
    have hg2b : 1 - C / ((K + C) / (4/5 : ℚ)) < 3/10 - feps := by
      rw [hrev2, sub_lt_comm, lt_div_iff₀ hKC, hfe]
      linarith
    rw [app_branch2 _ _ (le_of_lt hK) h3 hg3 h2 hg2a hg2b,
      core_branch_ramp _ _ hK (by rw [lt_div_iff₀ (by norm_num : (0:ℚ) < 7)]; linarith)]
  · have hK : 0 < K := by
      have : (0:ℚ) < C / 7 := by positivity
      linarith
    have h3 : 0 < 3 * K + C := by linarith
    have h7' : C ≤ 7 * K := by
      rw [div_le_iff₀ (by norm_num : (0:ℚ) < 7)] at h7
      linarith
    have hg : 3/10 - feps ≤ 1 - C / (3 * K + C) := by
      rw [le_sub_comm, div_le_iff₀ h3, hfe]
      linarith
    rw [app_branch3 _ _ (le_of_lt hK) h3 hg, core_branch3 _ _ hK h7]

/-- Witness for C10 at the threshold point `C = 1`, `K = 1/7`: both
inversions return `10/7`. -/
theorem solve_agreement_witness :
    solve_revenue_from_commission_app (1/7) 1 = solve_revenue_from_commission_core (1/7) 1 :=
  solve_agreement 1 (1/7) (by norm_num) (Or.inr (Or.inr (by norm_num)))

/-! ## Claim C6 — missing catalog prices -/

/-- A list is a prefix of itself followed by anything. -/
theorem leadsWith_append_self (x b : List Char) : leadsWith x (x ++ b) = true := by
  induction x with
  | nil => rfl
  | cons a as ih => simp [leadsWith, ih]

/-- Substring occurrence is stable under prepending. -/
theorem occursIn_append_right (a x rest : List Char) (h : occursIn x rest = true) :
    occursIn x (a ++ rest) = true := by
  induction a with
  | nil => exact h
  | cons c cs ih => simp [occursIn, ih]

/-- A list occurs in itself followed by anything. -/
theorem occursIn_self_append (x b : List Char) : occursIn x (x ++ b) = true := by
  cases x with
  | nil => cases b <;> simp [occursIn, leadsWith]
  | cons c cs =>
    have h := leadsWith_append_self (c :: cs) b
    simp only [List.cons_append] at h
    simp [occursIn, h]

/-- A list occurs in any sandwich around it. -/
theorem occursIn_sandwich (a x b : List Char) : occursIn x (a ++ x ++ b) = true := by
  rw [List.append_assoc]
  exact occursIn_append_right a x (x ++ b) (occursIn_self_append x b)

/-- A successful association lookup comes from a member of the list. -/
theorem alookup_mem {α : Type} (m : List (String × α)) (k : String) (v : α)
    (h : alookup m k = some v) : ∃ p ∈ m, p.2 = v := by
  simp only [alookup, Option.map_eq_some'] at h
  obtain ⟨p, hp, hv⟩ := h
  exact ⟨p, List.mem_of_find?_eq_some hp, hv⟩

/-- Any price read out of a catalog entry is stored in the catalog. -/
theorem stored_of_entry (cat : Catalog) (r : CatItem) (cost : List (String × CostEntry))
    (e : CostEntry) (kr ke : String) (p : ℚ)
    (h1 : alookup cat.items kr = some r) (h2 : r.cost = some cost)
    (h3 : alookup cost ke = some e) (h4 : p ∈ entryPrices e) :
    p ∈ storedPrices cat := by
  obtain ⟨pr, hpr, hpr2⟩ := alookup_mem cat.items kr r h1
  obtain ⟨pe, hpe, hpe2⟩ := alookup_mem cost ke e h3
  simp only [storedPrices, List.mem_flatMap]
  refine ⟨pr, hpr, ?_⟩
  rw [hpr2, h2]
  simp only [List.mem_flatMap]
  exact ⟨pe, hpe, by rw [hpe2]; exact h4⟩

/-- Counterexample to C6 as stated: with an empty catalog, requesting
`house_wrap` in region `Metro` makes `item_cost` raise an error naming the
item but not the region, and `_append_line` swallows the error entirely —
it emits a priced row with unit cost 0 instead of surfacing the failure. -/
theorem missing_price_cx :
    item_cost ⟨[]⟩ "house_wrap" "Metro" none none =
      .error "Unknown item 'house_wrap' in catalog" ∧
    occursIn "Metro".data "Unknown item 'house_wrap' in catalog".data = false ∧
    append_line ⟨[]⟩ "Metro" "ColorPlus" 8 ⟨"house_wrap", 3, false, false, false, none⟩ =
      some ⟨"house_wrap", 3, "", 0, 0⟩ := by
  refine ⟨?_, by decide, ?_⟩
  · have h : item_cost ⟨[]⟩ "house_wrap" "Metro" none none =
        .error ("Unknown item '" ++ "house_wrap" ++ "' in catalog") := rfl
    rw [h]
    exact congrArg Except.error (by decide)
  · simp only [append_line, item_cost_call_from_registry]
    rw [if_neg (by norm_num : ¬ (3:ℚ) ≤ 0)]
    simp [alookup]

/-- A prefix match survives appending to the haystack. -/
theorem leadsWith_mono_append (x l post : List Char) (h : leadsWith x l = true) :
    leadsWith x (l ++ post) = true := by
  induction x generalizing l with
  | nil => rfl
  | cons a as ih =>
    cases l with
    | nil => exact absurd h (by simp [leadsWith])
    | cons b bs =>
      simp only [leadsWith, Bool.and_eq_true, beq_iff_eq] at h
      simp only [List.cons_append, leadsWith, Bool.and_eq_true, beq_iff_eq]
      exact ⟨h.1, ih bs h.2⟩

/-- Substring occurrence survives appending to the haystack. -/
theorem occursIn_append_left (x pre post : List Char) (h : occursIn x pre = true) :
    occursIn x (pre ++ post) = true := by
  induction pre with
  | nil =>
    simp only [occursIn, List.isEmpty_iff] at h
    subst h
    cases post <;> simp [occursIn, leadsWith]
  | cons c cs ih =>
    simp only [occursIn, Bool.or_eq_true] at h
    rcases h with h | h
    · have h2 := leadsWith_mono_append x (c :: cs) post h
      simp only [List.cons_append] at h2 ⊢
      simp [occursIn, h2]
    · simp [occursIn, ih h]

/-- A list occurs in itself. -/
theorem occursIn_self (x : List Char) : occursIn x x = true := by
  have h := occursIn_self_append x []
  rwa [List.append_nil] at h

/-- Claim C6 amended: `Catalog.item_cost` raises a descriptive error for a
missing item or price — naming the item always, and the region too whenever
the item itself exists — and any value it does return is a price stored in
the catalog (it never fabricates 0).  However, `trades/registry._append_line`
catches every pricing exception (including the `TypeError` from its
unsupported `surface=` keyword) and emits the line with unit cost 0 instead
of surfacing it. -/
theorem missing_price_errors :
    (∀ (cat : Catalog) (item region : String) (finish : Option String) (fw : Option ℤ),
      alookup cat.items item = none →
      item_cost cat item region finish fw =
        .error ("Unknown item '" ++ item ++ "' in catalog") ∧
      occursIn item.data ("Unknown item '" ++ item ++ "' in catalog").data = true) ∧
    (∀ (cat : Catalog) (item region : String) (finish : Option String) (fw : Option ℤ)
      (r : CatItem) (cost : List (String × CostEntry)),
      alookup cat.items item = some r → r.cost = some cost →
      ¬ (item = "fascia_12ft" ∧ truthyInt fw = true) →
      ¬ (truthyStr finish = true ∧ (alookup cost (finish.getD "")).isSome = true) →
      alookup cost region = none →
      item_cost cat item region finish fw =
        .error ("Missing " ++ item ++ " price for region=" ++ region) ∧
      occursIn item.data ("Missing " ++ item ++ " price for region=" ++ region).data = true ∧
      occursIn region.data ("Missing " ++ item ++ " price for region=" ++ region).data = true) ∧
    (∀ (cat : Catalog) (item region : String) (finish : Option String) (fw : Option ℤ) (c : ℚ),
      item_cost cat item region finish fw = .ok c → c ∈ storedPrices cat) ∧
    (∀ (cat : Catalog) (region finish : String) (fw : ℤ) (req : AppendReq),
      0 < req.qty →
      append_line cat region finish fw req =
        some ⟨req.item, req.qty,
          (match alookup cat.items req.item with | some r => r.uom | none => ""), 0, 0⟩) := by
  refine ⟨?_, ?_, ?_, ?_⟩
  · intro cat item region finish fw h
    constructor
    · simp only [item_cost, h]
    · exact occursIn_sandwich "Unknown item '".data item.data "' in catalog".data
  · intro cat item region finish fw r cost h1 h2 h3 h4 h5
    refine ⟨?_, ?_, ?_⟩
    · simp only [item_cost, h1, h2]
      rw [if_neg h3, if_neg h4]
      simp only [h5]
    · apply occursIn_append_left
      apply occursIn_append_left
      exact occursIn_append_right "Missing ".data item.data item.data (occursIn_self item.data)
    · exact occursIn_append_right _ region.data region.data (occursIn_self region.data)
  · intro cat item region finish fw c h
    simp only [item_cost] at h
    split at h
    · exact absurd h (by simp)
    · rename_i r hr
      split at h
      · exact absurd h (by simp)
      · rename_i cost hcost
        split at h
        · split at h
          · rename_i t ht
            split at h
            · rename_i p hp
              injection h with h'
              subst h'
              obtain ⟨q, hq, hq2⟩ := alookup_mem t _ _ hp
              exact stored_of_entry cat r cost (.tier t) item _ _ hr hcost ht
                (by simp only [entryPrices, List.mem_map]; exact ⟨q, hq, hq2⟩)
            · exact absurd h (by simp)
          · exact absurd h (by simp)
        · split at h
          · split at h
            · rename_i t ht
              split at h
              · rename_i p hp
                injection h with h'
                subst h'
                obtain ⟨q, hq, hq2⟩ := alookup_mem t _ _ hp
                exact stored_of_entry cat r cost (.tier t) item _ _ hr hcost ht
                  (by simp only [entryPrices, List.mem_map]; exact ⟨q, hq, hq2⟩)
              · exact absurd h (by simp)
            · exact absurd h (by simp)
          · split at h
            · rename_i p hp
              injection h with h'
              subst h'
              exact stored_of_entry cat r cost (.price _) item region _ hr hcost hp
                (by simp [entryPrices])
            · exact absurd h (by simp)
            · exact absurd h (by simp)
  · intro cat region finish fw req hq
    simp only [append_line, item_cost_call_from_registry]
    rw [if_neg (not_le.mpr hq)]
    simp

/-- Witness for C6: the unknown-item error and the zero-cost line at a
concrete empty catalog. -/
theorem missing_price_errors_witness :
    item_cost ⟨[]⟩ "plank" "Metro" none none =
      .error ("Unknown item '" ++ "plank" ++ "' in catalog") ∧
    append_line ⟨[]⟩ "Metro" "Primed" 8 ⟨"plank", 2, false, false, false, none⟩ =
      some ⟨"plank", 2, "", 0, 0⟩ := by
  constructor
  · exact (missing_price_errors.1 ⟨[]⟩ "plank" "Metro" none none rfl).1
  · exact (missing_price_errors.2.2.2 ⟨[]⟩ "Metro" "Primed" 8
      ⟨"plank", 2, false, false, false, none⟩ (by norm_num)).trans rfl

/-! ## Claim C7 — ColorPlus/Woodtone coil split -/

/-- Claim C7: under a ColorPlus or Woodtone finish with positive aggregated
coil quantity, all coil rows are replaced by exactly two color rows, each
with quantity `ceil(total/4)`, labelled per `coil_labels`; textually
identical body/trim colors get "(Body)"/"(Trim)" suffixes; Primed line
items pass through unchanged; and coil qty 10 with body "Iron Gray" and trim
"Arctic White" yields two rows of qty 3 labelled "Iron Gray Trim Coil" and
"Arctic White Trim Coil". -/
theorem split_color_coils_spec :
    (∀ (items : List LineItem) (b t : String), split_color_coils items "Primed" b t = items) ∧
    (∀ (items : List LineItem) (fin b t : String) (base : LineItem) (rest : List LineItem),
      (fin = "ColorPlus" ∨ fin = "Woodtone") →
      items.filter is_coil = base :: rest →
      0 < coil_total items →
      split_color_coils items fin b t =
        items.filter (fun li => ! is_coil li) ++
          [⟨(coil_labels b t).1, ((⌈coil_total items / 4⌉ : ℤ) : ℚ),
            (if base.uom ≠ "" then base.uom else "RL"), base.unit_cost, base.ext_cost⟩,
           ⟨(coil_labels b t).2, ((⌈coil_total items / 4⌉ : ℤ) : ℚ),
            (if base.uom ≠ "" then base.uom else "RL"), base.unit_cost, base.ext_cost⟩]) ∧
    (∀ c : String, c ≠ "" →
      (coil_labels c c).1 = pyStrip c ++ " Trim Coil (Body)" ∧
      (coil_labels c c).2 = pyStrip c ++ " Trim Coil (Trim)") ∧
    split_color_coils [⟨"coil_roll", 10, "RL", 100, 1000⟩] "ColorPlus" "Iron Gray" "Arctic White" =
      [⟨"Iron Gray Trim Coil", 3, "RL", 100, 1000⟩,
       ⟨"Arctic White Trim Coil", 3, "RL", 100, 1000⟩] := by
  have hgen : ∀ (items : List LineItem) (fin b t : String) (base : LineItem)
      (rest : List LineItem),
      (fin = "ColorPlus" ∨ fin = "Woodtone") →
      items.filter is_coil = base :: rest →
      0 < coil_total items →
      split_color_coils items fin b t =
        items.filter (fun li => ! is_coil li) ++
          [⟨(coil_labels b t).1, ((⌈coil_total items / 4⌉ : ℤ) : ℚ),
            (if base.uom ≠ "" then base.uom else "RL"), base.unit_cost, base.ext_cost⟩,
           ⟨(coil_labels b t).2, ((⌈coil_total items / 4⌉ : ℤ) : ℚ),
            (if base.uom ≠ "" then base.uom else "RL"), base.unit_cost, base.ext_cost⟩] := by
    intro items fin b t base rest hfin hcoil htot
    have hne : ¬ items = [] := by
      intro h
      subst h
      simp at hcoil
    have hceil : (1:ℤ) ≤ ⌈coil_total items / 4⌉ := by
      have h := Int.ceil_pos.mpr (div_pos htot (by norm_num : (0:ℚ) < 4))
      omega
    have hfin' : pyLower (pyStrip fin) = "colorplus" ∨ pyLower (pyStrip fin) = "woodtone" := by
      rcases hfin with h | h <;> subst h
      · exact Or.inl (by decide)
      · exact Or.inr (by decide)
    simp only [split_color_coils, hcoil]
    rw [if_neg (not_not_intro hfin'), if_neg hne, if_neg (not_le.mpr htot),
      max_eq_right hceil]
  refine ⟨?_, hgen, ?_, ?_⟩
  · intro items b t
    simp only [split_color_coils]
    rw [if_pos (by decide)]
  · intro c hc
    simp only [coil_labels]
    rw [if_neg hc, if_neg hc]
    split_ifs with h
    · constructor
      · rw [String.append_assoc,
          show (" Trim Coil" ++ " (Body)" : String) = " Trim Coil (Body)" from by decide]
      · rw [String.append_assoc,
          show (" Trim Coil" ++ " (Trim)" : String) = " Trim Coil (Trim)" from by decide]
    · exact absurd rfl h
  · have hfilter : [(⟨"coil_roll", 10, "RL", 100, 1000⟩ : LineItem)].filter is_coil =
        (⟨"coil_roll", 10, "RL", 100, 1000⟩ : LineItem) :: [] := by
      simp [List.filter_cons,
        show is_coil ⟨"coil_roll", 10, "RL", 100, 1000⟩ = true from by decide]
    have hct : coil_total [(⟨"coil_roll", 10, "RL", 100, 1000⟩ : LineItem)] = 10 := by
      simp only [coil_total, hfilter, List.map, List.sum_cons, List.sum_nil]
      norm_num [max_def]
    rw [hgen _ "ColorPlus" "Iron Gray" "Arctic White" ⟨"coil_roll", 10, "RL", 100, 1000⟩ []
      (Or.inl rfl) hfilter (by rw [hct]; norm_num)]
    rw [hct]
    have hc3 : (⌈(10:ℚ) / 4⌉ : ℤ) = 3 := by
      rw [Int.ceil_eq_iff]
      norm_num
    rw [hc3]
    simp only [List.filter_cons, List.filter_nil,
      show (! is_coil ⟨"coil_roll", 10, "RL", 100, 1000⟩) = false from by decide,
      Bool.false_eq_true, if_false, List.nil_append]
    norm_num [LineItem.mk.injEq]
    exact ⟨by decide, by decide⟩

/-- Witness for C7: identical body and trim colors get disambiguated
labels. -/
theorem split_color_coils_spec_witness :
    (coil_labels "Gray" "Gray").1 = pyStrip "Gray" ++ " Trim Coil (Body)" ∧
    (coil_labels "Gray" "Gray").2 = pyStrip "Gray" ++ " Trim Coil (Trim)" :=
  split_color_coils_spec.2.2.1 "Gray" (by decide)

/-! ## Claim C8 — trim minimum quantity and 4/4 remap -/

/-- Case analysis of the include loop on a 5/4 trim include: it emits
nothing (zero quantity), or the remapped 4/4 surface-keyed request under
Board & Batten, or the same item, in both cases with quantity
`max 2 (round qty)`. -/
theorem include_reqs_trim (inp : TradeInputs) (outputs : String → ℚ) (inc : IncludeEntry)
    (hmem : inc.item ∈ trim54Keys) :
    include_reqs inp outputs inc = [] ∨
    (isBnBSiding inp.siding_type = true ∧
      include_reqs inp outputs inc =
        [⟨(TRIM_44_MAP inc.item).getD inc.item,
          ((max 2 (pyRound (qty_from_expr inc.qty outputs)) : ℤ) : ℚ), true, false, true,
          some surface_default_44⟩]) ∨
    (isBnBSiding inp.siding_type = false ∧
      include_reqs inp outputs inc =
        [⟨inc.item, ((max 2 (pyRound (qty_from_expr inc.qty outputs)) : ℤ) : ℚ),
          inc.finish_keyed, inc.fascia_width_keyed, false, none⟩]) := by
  have hne : ¬ (inc.item = "siding_sf" ∧ pyLower (pyStrip inp.siding_type) = "lap") := by
    intro h
    rw [h.1] at hmem
    exact absurd hmem (by decide)
  have hne2 : ¬ (inc.item = "siding_sf" ∧ isBnBSiding inp.siding_type = true) := by
    intro h
    rw [h.1] at hmem
    exact absurd hmem (by decide)
  have hsome : (TRIM_44_MAP inc.item).isSome = true := by
    have hall : ∀ x ∈ trim54Keys, (TRIM_44_MAP x).isSome = true := by decide
    exact hall _ hmem
  simp only [include_reqs]
  by_cases hq : qty_from_expr inc.qty outputs = 0
  · rw [if_pos hq]
    exact Or.inl rfl
  · rw [if_neg hq, if_neg hne, if_neg hne2]
    by_cases hbnb : isBnBSiding inp.siding_type = true
    · rw [if_pos ⟨hbnb, hsome⟩]
      exact Or.inr (Or.inl ⟨hbnb, rfl⟩)
    · have hb : isBnBSiding inp.siding_type = false := by
        revert hbnb
        cases isBnBSiding inp.siding_type <;> simp
      rw [if_neg (fun hco => hbnb hco.1), if_pos hmem]
      exact Or.inr (Or.inr ⟨hb, rfl⟩)

/-- Claim C8: every request a 5/4 trim include emits is for at least 2
pieces; under Board & Batten the item is remapped through `TRIM_44_MAP` with
finish- and surface-keyed pricing at the catalog default surface; otherwise
the item key is unchanged; and `_append_line` never changes a request's
quantity. -/
theorem trim_min_two :
    (∀ (inp : TradeInputs) (outputs : String → ℚ) (inc : IncludeEntry) (req : AppendReq),
      inc.item ∈ trim54Keys →
      req ∈ include_reqs inp outputs inc →
      2 ≤ req.qty) ∧
    (∀ (inp : TradeInputs) (outputs : String → ℚ) (inc : IncludeEntry) (req : AppendReq),
      inc.item ∈ trim54Keys →
      isBnBSiding inp.siding_type = true →
      req ∈ include_reqs inp outputs inc →
      req.item = (TRIM_44_MAP inc.item).getD inc.item ∧
      req.finishKeyed = true ∧ req.surfaceKeyed = true ∧
      req.surfaceValue = some surface_default_44) ∧
    (∀ (inp : TradeInputs) (outputs : String → ℚ) (inc : IncludeEntry) (req : AppendReq),
      inc.item ∈ trim54Keys →
      isBnBSiding inp.siding_type = false →
      req ∈ include_reqs inp outputs inc →
      req.item = inc.item) ∧
    (∀ (cat : Catalog) (region finish : String) (fw : ℤ) (req : AppendReq) (li : LineItem),
      append_line cat region finish fw req = some li → li.qty = req.qty) := by
  refine ⟨?_, ?_, ?_, ?_⟩
  · intro inp outputs inc req hmem hreq
    rcases include_reqs_trim inp outputs inc hmem with h | ⟨_, h⟩ | ⟨_, h⟩ <;> rw [h] at hreq
    · exact absurd hreq (by simp)
    · rw [List.mem_singleton.mp hreq]
      show (2:ℚ) ≤ ((max 2 (pyRound (qty_from_expr inc.qty outputs)) : ℤ) : ℚ)
      exact_mod_cast le_max_left 2 (pyRound (qty_from_expr inc.qty outputs))
    · rw [List.mem_singleton.mp hreq]
      show (2:ℚ) ≤ ((max 2 (pyRound (qty_from_expr inc.qty outputs)) : ℤ) : ℚ)
      exact_mod_cast le_max_left 2 (pyRound (qty_from_expr inc.qty outputs))
  · intro inp outputs inc req hmem hbnb hreq
    rcases include_reqs_trim inp outputs inc hmem with h | ⟨_, h⟩ | ⟨hb, h⟩ <;> rw [h] at hreq
    · exact absurd hreq (by simp)
    · rw [List.mem_singleton.mp hreq]
      exact ⟨rfl, rfl, rfl, rfl⟩
    · rw [hbnb] at hb
      exact absurd hb (by simp)
  · intro inp outputs inc req hmem hbnb hreq
    rcases include_reqs_trim inp outputs inc hmem with h | ⟨hb, h⟩ | ⟨_, h⟩ <;> rw [h] at hreq
    · exact absurd hreq (by simp)
    · rw [hbnb] at hb
      exact absurd hb (by simp)
    · rw [List.mem_singleton.mp hreq]
  · intro cat region finish fw req li h
    simp only [append_line, item_cost_call_from_registry] at h
    split at h
    · exact absurd h (by simp)
    · injection h with h'
      rw [← h']

/-- Witness for C8: a Board & Batten job's `trim6_12ft` include with quantity
expression "1" emits the remapped 4/4 request with quantity 2. -/
theorem trim_min_two_witness :
    2 ≤ (⟨"trim44_6_12ft", (2:ℚ), true, false, true, some "Rustic"⟩ : AppendReq).qty :=
  trim_min_two.1 ⟨"Board & Batten", "Low", 0, 0, "Metro", "Primed", 8⟩ (fun _ => 0)
    ⟨"trim6_12ft", "1", false, false⟩ _ (by decide)
    (by have h : include_reqs ⟨"Board & Batten", "Low", 0, 0, "Metro", "Primed", 8⟩
          (fun _ => 0) ⟨"trim6_12ft", "1", false, false⟩ =
          [⟨"trim44_6_12ft", (2:ℚ), true, false, true, some "Rustic"⟩] := by
          norm_num +decide [include_reqs, qty_from_expr, parseSimpleFloat, removeFirstDot,
            digitsVal, pyStrip, pySpace, pyLower, isBnBSiding, TRIM_44_MAP, surface_default_44,
            pyRound, max_def, leadsWith, toNat_c1, toNat_c0]
        rw [h]
        exact List.mem_singleton.mpr rfl)

/-! ## Claim C9 — eaves feet-inches extraction -/

/-- Counterexample to C9 as stated: in the report text
`"Eaves 10 ft\n113'6\""` the line following the "Eaves" header contains the
feet-inches token `113'6"`, yet the extractor returns 10 — the unit-suffixed
number found earlier (on the header line itself) wins, because the block scan
takes the first value it finds. -/
theorem eave_parse_cx :
    extract_eave_fascia "Eaves 10 ft\n113'6\"" = 10 ∧ (10:ℚ) ≠ 227/2 := by
  constructor
  · norm_num +decide [extract_eave_fascia, splitNl, splitNlAux, collapseWs, collapseWsAux,
      pyLower, pyStrip, pySpace, find_first, find_first_from, find_under_block,
      first_label_idx, eavesVariants, eavesEndLabels, occursIn, leadsWith,
      scan_len_within_block, firstNonzeroStrict, scan_len_strict, lineLenHit, findFtIn,
      parseFtInAt, findLenWithUnit, parseNumAt, lenUnitAt, consumeWordCI, atBoundary,
      isWordChar, digitsVal, firstLenHit, firstBare, bareNumberOf, List.range', List.getD,
      List.asString, toNat_c0, toNat_c1, toNat_c3, toNat_c6]
  · norm_num

/-- Claim C9 amended: a feet-inches token `N' M"` is converted to
`N + M/12` decimal feet and takes priority over unit-suffixed numbers on its
line and over bare numbers in the block; when the `113'6"` line is the first
value-bearing line of the eaves block (e.g. the text
`"Eaves\n113'6\"\nRakes"`), the extractor returns 113.5. -/
theorem eave_parse :
    extract_eave_fascia "Eaves\n113'6\"\nRakes" = 227/2 ∧
    (∀ (lines : List String) (idx lookahead : ℕ) (f i : ℕ),
      findFtIn (lines.getD idx "").data = some (f, i) →
      scan_len_strict lines idx lookahead = (f : ℚ) + (i : ℚ) / 12) ∧
    (∀ (lines : List String) (s e : ℕ) (bare_min bare_max v : ℚ),
      firstNonzeroStrict lines (List.range' s (e - s)) = some v →
      scan_len_within_block lines s e bare_min bare_max = v) := by
  refine ⟨?_, ?_, ?_⟩
  · norm_num +decide [extract_eave_fascia, splitNl, splitNlAux, collapseWs, collapseWsAux,
      pyLower, pyStrip, pySpace, find_first, find_first_from, find_under_block,
      first_label_idx, eavesVariants, eavesEndLabels, occursIn, leadsWith,
      scan_len_within_block, firstNonzeroStrict, scan_len_strict, lineLenHit, findFtIn,
      parseFtInAt, findLenWithUnit, parseNumAt, lenUnitAt, consumeWordCI, atBoundary,
      isWordChar, digitsVal, firstLenHit, firstBare, bareNumberOf, List.range', List.getD,
      List.asString, toNat_c0, toNat_c1, toNat_c3, toNat_c6]
  · intro lines idx lookahead f i h
    simp only [scan_len_strict, lineLenHit, h]
  · intro lines s e bare_min bare_max v h
    simp only [scan_len_within_block, h]

/-- Witness for C9's conditional parts: the priority rule applied at the
concrete line list `["Eaves", "113'6\""]` and its block. -/
theorem eave_parse_witness :
    scan_len_strict ["113'6\""] 0 1 = (113 : ℚ) + (6 : ℚ) / 12 ∧
    scan_len_within_block ["113'6\""] 0 1 1 5000 = 227/2 := by
  have h1 : findFtIn (["113'6\""].getD 0 "").data = some (113, 6) := by decide
  constructor
  · exact eave_parse.2.1 ["113'6\""] 0 1 113 6 h1
  · have h1' : findFtIn ['1', '1', '3', '\'', '6', '\"'] = some (113, 6) := by decide
    have h2 : firstNonzeroStrict ["113'6\""] (List.range' 0 (1 - 0)) = some (227/2) := by
      norm_num +decide [firstNonzeroStrict, List.range', scan_len_strict, lineLenHit, h1',
        toNat_c0, toNat_c1, toNat_c3, toNat_c6]
    exact eave_parse.2.2 ["113'6\""] 0 1 1 5000 (227/2) h2
